import Mathlib

/-!
Verification of the retriable rolling-ops lock protocol
(`lib/charms/rolling_ops/v0/retriable_rolling_ops.py`).

The shallow embedding below translates the state derivation of
`RetriableLock`, its predicates, and the leader-side scheduling pass
`RetriableRollingOpsManager._on_process_locks` into executable Lean
definitions, together with the requester-side handlers
`_on_acquire_lock` and `_on_run_with_lock`.

The base `rollingops` library (classes `Lock`, `Locks`, `LockState`,
`RollingOpsManager`) is not part of the analysed sources; the places
where the embedding depends on it are modelled from the specification
and marked `Modelled from the spec:` in their doc comments.
-/

namespace RollingOps

/-- Modelled from the spec: the stored lock states of the base
`rollingops` library (`LockState`), the "stored raw state" of the spec's
data model.  The base library is not among the analysed sources; the
spec gives its persisted values as `acquire`, `release`, `granted`,
`idle`. -/
inductive LockState where
  | acquire
  | release
  | granted
  | idle
deriving DecidableEq, Repr

/-- `RetriableLockState`: the derived per-node lock status
(`retriable_rolling_ops.py`, class `RetriableLockState`). -/
inductive RetriableLockState where
  | acquire
  | release
  | granted
  | idle
  | departing
  | retryLock
  | acquireButSvcNotResponsive
  | stoppedButNotRequested
deriving DecidableEq, Repr

/-- The conversion `RetriableLockState(super()._state.value)` applied to a
base-library state (line 149 of the source): each base state maps to the
retriable state of the same name. -/
def baseToRetriable : LockState → RetriableLockState
  | .acquire => .acquire
  | .release => .release
  | .granted => .granted
  | .idle => .idle

/-- `RetriableLock._state` (getter, lines 143-170): derives the retriable
lock state from the fleet-departure predicate, the base-library stored
state, the retrial counter and the node-liveness predicate.  Translated
from the source's control flow:
if departing return DEPARTING; if the base state is RELEASE or GRANTED
return it; if the retrial count is positive return RETRY_LOCK; if the
unit is not up return ACQUIRE_BUT_SVC_NOT_RESPONSIVE when the base state
is ACQUIRE and STOPPED_BUT_NOT_REQUESTED otherwise; finally return
ACQUIRE or IDLE according to the base state. -/
def lockStateOf (isDeparting : Bool) (appState : LockState)
    (retrialCount : Nat) (unitIsUp : Bool) : RetriableLockState :=
  if isDeparting then
    .departing
  else if appState = .release ∨ appState = .granted then
    baseToRetriable appState
  else if 0 < retrialCount then
    .retryLock
  else if unitIsUp = false then
    (if appState = .acquire then .acquireButSvcNotResponsive
     else .stoppedButNotRequested)
  else if appState = .acquire then
    .acquire
  else
    .idle

/-- One unit's view of the lock, as read by a `RetriableLock` object:
`isLocal` is whether the view is for the unit running the handler
(`self.charm.unit == self.unit`), `baseState` is the base library's
stored state for the unit (spec: the "stored raw state"), `retryCount`
the unit's `retry-lock` counter, `unitIsUp` the liveness predicate
`workload_manager.is_node_up(unit)` and `hasStarted` the unit's
`has_started` bag entry. -/
structure LockView where
  isLocal : Bool
  baseState : LockState
  retryCount : Nat
  unitIsUp : Bool
  hasStarted : Bool
deriving DecidableEq, Repr

/-- The derived state of a view, given the fleet-wide departure flag
(`workload_manager.is_departing()` is fleet-global in the source). -/
def LockView.state (d : Bool) (v : LockView) : RetriableLockState :=
  lockStateOf d v.baseState v.retryCount v.unitIsUp

/-- `RetriableLock.is_held` (lines 204-206). -/
def LockView.is_held (d : Bool) (v : LockView) : Bool :=
  v.state d == RetriableLockState.granted

/-- `RetriableLock.release_requested` (lines 208-210). -/
def LockView.release_requested (d : Bool) (v : LockView) : Bool :=
  v.state d == RetriableLockState.release

/-- `RetriableLock.is_pending` (lines 212-219). -/
def LockView.is_pending (d : Bool) (v : LockView) : Bool :=
  v.state d == RetriableLockState.acquire
    || v.state d == RetriableLockState.departing
    || v.state d == RetriableLockState.retryLock
    || v.state d == RetriableLockState.acquireButSvcNotResponsive

/-- `RetriableLock.is_blocked` (lines 197-202). -/
def LockView.is_blocked (d : Bool) (v : LockView) : Bool :=
  v.hasStarted
    && (v.state d == RetriableLockState.departing
        || v.state d == RetriableLockState.stoppedButNotRequested)

/-- `RetriableLock.retry` (lines 232-234). -/
def LockView.retry (d : Bool) (v : LockView) : Bool :=
  v.state d == RetriableLockState.retryLock

/-- `RetriableLock.acquire_with_stopped_service` (lines 246-248). -/
def LockView.acquire_with_stopped_service (d : Bool) (v : LockView) : Bool :=
  v.state d == RetriableLockState.acquireButSvcNotResponsive

/-- `RetriableLock.__init__` (lines 129-135): constructing a view for the
unit running the handler latches `has_started` when that unit's workload
is up (`if self.charm.unit == self.unit and self.unit_is_up:
self.started()`); constructing a view for any other unit writes
nothing. -/
def construct (v : LockView) : LockView :=
  if v.isLocal && v.unitIsUp then { v with hasStarted := true } else v

/-- Modelled from the spec: the base library's `Lock.clear` (not among
the analysed sources) "clears it (writes IDLE back)"; through the
`_state` setter of the source (lines 191-195) the stored raw state for
the unit becomes IDLE. -/
def LockView.clear (v : LockView) : LockView :=
  { v with baseState := LockState.idle }

/-- Modelled from the spec: the base library's `Lock.grant` (not among
the analysed sources) writes GRANTED for the node into the fleet-wide
bag; through the `_state` setter of the source (lines 189-190) the
stored raw state for the unit becomes GRANTED. -/
def LockView.grant (v : LockView) : LockView :=
  { v with baseState := LockState.granted }

/-- Modelled from the spec: the base library's `Lock.release` (not among
the analysed sources) writes RELEASE on the unit's own bag; through the
`_state` setter of the source (lines 187-188) the stored raw state for
the unit becomes RELEASE. -/
def LockView.release (v : LockView) : LockView :=
  { v with baseState := LockState.release }

/-- The first pass of `_on_process_locks` (lines 388-407): iterate the
fleet's views in relation order, constructing the `RetriableLock` for
each unit (which may latch `has_started` for the handler's own unit).
Return the views as mutated so far paired with `none` when the pass
aborts (a held or blocked view: the source `return`s), or with the
accumulated pending list (index and view snapshot) when the loop
completes.  A release-requested view is cleared in place
(`lock.clear()`), and subsequent checks for that unit observe the
cleared data.  The handler's own pending view is inserted at the front
of the pending list (`pending.insert(0, lock)`); others are appended. -/
def firstPassAux (d : Bool) (i : Nat) (pending : List (Nat × LockView)) :
    List LockView → List LockView × Option (List (Nat × LockView))
  | [] => ([], some pending)
  | v :: rest =>
    let v1 := construct v
    if v1.is_held d then
      (v1 :: rest, none)
    else
      let v2 := if v1.release_requested d then v1.clear else v1
      if v2.is_blocked d then
        (v2 :: rest, none)
      else
        let pending' :=
          if v2.is_pending d then
            if v2.isLocal then (i, v2) :: pending else pending ++ [(i, v2)]
          else pending
        let r := firstPassAux d (i + 1) pending' rest
        (v2 :: r.1, r.2)

/-- The priority loop of `_on_process_locks` (lines 413-423): scan the
pending list once, selecting the first lock for which
`acquire_with_stopped_service()` holds, or — in the same iteration —
the first lock for which `retry()` holds; `break` on the first match. -/
def findPriority (d : Bool) : List (Nat × LockView) → Option (Nat × LockView)
  | [] => none
  | p :: rest =>
    if p.2.acquire_with_stopped_service d then some p
    else if p.2.retry d then some p
    else findPriority d rest

/-- The selection step of `_on_process_locks` (lines 413-427): the
priority loop's choice, and otherwise — when pending is non-empty —
the last element of the pending list (`pending[-1]`). -/
def selectNext (d : Bool) (pending : List (Nat × LockView)) :
    Option (Nat × LockView) :=
  match findPriority d pending with
  | some p => some p
  | none => pending.getLast?

/-- `_on_process_locks` (lines 362-440), after the leader check: the
first pass over all views, then — if it completed — selection and the
grant write (`next_lock_to_process.grant()`).  Returns the views after
the pass together with the granted lock, if any. -/
def processLocks (d : Bool) (views : List LockView) :
    List LockView × Option (Nat × LockView) :=
  match firstPassAux d 0 [] views with
  | (vs, none) => (vs, none)
  | (vs, some pending) =>
    match selectNext d pending with
    | none => (vs, none)
    | some p => (vs.set p.1 (p.2.grant), some p)

/-- `_on_acquire_lock` (lines 319-322): constructs the handler unit's
lock view, resets its retrial counter to 0, and then performs the base
class's acquire.  Modelled from the spec: the base
`RollingOpsManager._on_acquire_lock` (not among the analysed sources)
writes the acquire request into the unit's own bag ("RequesterLoop
writes 'I want the lock' into its own bag"). -/
def onAcquireLock (v : LockView) : LockView :=
  let lock := construct v
  let lock2 := { lock with retryCount := 0 }
  { lock2 with baseState := LockState.acquire }

/-- Outcome of the disruptive-operation callback invoked under the lock:
normal return, explicit deferral of the event, an explicitly raised
`RollingOpsRetryLockLaterException`, or any other raised exception. -/
inductive CallbackOutcome where
  | success
  | deferred
  | raisedRetryLater
  | raisedOther
deriving DecidableEq, Repr

/-- `_on_run_with_lock` (lines 337-360): construct the handler unit's
lock view; run the base class's handler.  Modelled from the spec: the
base `RollingOpsManager._on_run_with_lock` (not among the analysed
sources) invokes the callback and, on normal return (including a
deferral, which returns normally), releases the lock; a raised
exception propagates before the base release.  The wrapper then:
on success, returns; on a deferred event, raises and catches
`RollingOpsRetryLockLaterException`, incrementing the retrial counter
and releasing; on a raised `RollingOpsRetryLockLaterException`,
increments the retrial counter and releases; on any other exception,
logs it and releases without touching the retrial counter. -/
def runWithLock (o : CallbackOutcome) (v : LockView) : LockView :=
  let lock := construct v
  match o with
  | .success => lock.release
  | .deferred => { lock.release with retryCount := lock.retryCount + 1 }
  | .raisedRetryLater => { lock.release with retryCount := lock.retryCount + 1 }
  | .raisedOther => lock.release

/-- `_should_lock_be_reacquired` (lines 324-335): the handler unit's
view satisfies `retry()` and neither `is_held()` nor `is_pending()`. -/
def shouldLockBeReacquired (d : Bool) (v : LockView) : Bool :=
  let lock := construct v
  lock.retry d && !(lock.is_held d || lock.is_pending d)

/-- The number of views whose derived status is GRANTED. -/
def countHeld (d : Bool) (views : List LockView) : Nat :=
  views.countP (fun v => v.is_held d)

/-- The derivation cascade exactly as the specification words it
(spec section 3, "Derivation order (first match wins)"), for comparison
with the source's `lockStateOf`. -/
def specLockStatus (fleetDeparting : Bool) (stored : LockState)
    (retryCount : Nat) (nodeUp : Bool) (requested : Bool) :
    RetriableLockState :=
  if fleetDeparting then .departing
  else if stored = .release then .release
  else if stored = .granted then .granted
  else if 0 < retryCount then .retryLock
  else if nodeUp = false then
    (if requested then .acquireButSvcNotResponsive
     else .stoppedButNotRequested)
  else if requested then .acquire
  else .idle

/-! ### Helper lemmas -/

/-- Constructing a lock only touches `has_started`; the derived state is
unchanged. -/
theorem state_construct (d : Bool) (v : LockView) :
    (construct v).state d = v.state d := by
  unfold construct
  split <;> rfl

theorem is_held_construct (d : Bool) (v : LockView) :
    (construct v).is_held d = v.is_held d := by
  unfold LockView.is_held
  rw [state_construct]

theorem release_requested_construct (d : Bool) (v : LockView) :
    (construct v).release_requested d = v.release_requested d := by
  unfold LockView.release_requested
  rw [state_construct]

/-- A view whose stored raw state is IDLE never derives GRANTED. -/
theorem lockStateOf_idle_ne_granted (d : Bool) (rc : Nat) (up : Bool) :
    lockStateOf d LockState.idle rc up ≠ RetriableLockState.granted := by
  unfold lockStateOf
  split_ifs with h1 h2 h3 h4 h5 <;> simp_all [baseToRetriable]

/-- A cleared view is not held. -/
theorem is_held_clear (d : Bool) (v : LockView) :
    v.clear.is_held d = false := by
  unfold LockView.is_held LockView.clear LockView.state
  simp [lockStateOf_idle_ne_granted]

/-- A view whose derived state is RELEASE is not held. -/
theorem is_held_of_release_requested (d : Bool) (v : LockView)
    (h : v.release_requested d = true) : v.is_held d = false := by
  unfold LockView.release_requested at h
  unfold LockView.is_held
  simp only [beq_iff_eq] at h ⊢
  rw [h]
  simp

/-- The first pass preserves the number of held views. -/
theorem countHeld_firstPassAux (d : Bool) (l : List LockView) :
    ∀ (i : Nat) (P : List (Nat × LockView)),
      countHeld d (firstPassAux d i P l).1 = countHeld d l := by
  induction l with
  | nil => intro i P; rfl
  | cons v rest ih =>
    intro i P
    simp only [firstPassAux]
    by_cases h1 : (construct v).is_held d
    · simp only [h1, if_true]
      unfold countHeld
      simp [List.countP_cons, is_held_construct]
    · simp only [h1, if_false, Bool.false_eq_true]
      by_cases hrel : (construct v).release_requested d
      · simp only [hrel, if_true]
        by_cases hb : ((construct v).clear.is_blocked d)
        · simp only [hb, if_true]
          unfold countHeld
          have hv : v.is_held d = false := by
            have := is_held_of_release_requested d (construct v) hrel
            rwa [is_held_construct] at this
          simp [List.countP_cons, is_held_clear, hv]
        · simp only [hb, if_false, Bool.false_eq_true]
          unfold countHeld
          have hv : v.is_held d = false := by
            have := is_held_of_release_requested d (construct v) hrel
            rwa [is_held_construct] at this
          simp only [List.countP_cons, is_held_clear, hv]
          have := ih (i + 1)
          unfold countHeld at this
          simp [this]
      · simp only [hrel, if_false, Bool.false_eq_true]
        by_cases hb : ((construct v).is_blocked d)
        · simp only [hb, if_true]
          unfold countHeld
          simp [List.countP_cons, is_held_construct]
        · simp only [hb, if_false, Bool.false_eq_true]
          unfold countHeld
          simp only [List.countP_cons, is_held_construct]
          have := ih (i + 1)
          unfold countHeld at this
          simp [this]

/-- If the first pass completes (does not abort), no input view was
held. -/
theorem not_held_of_firstPassAux_complete (d : Bool) (l : List LockView) :
    ∀ (i : Nat) (P q : _), (firstPassAux d i P l).2 = some q →
      ∀ v ∈ l, v.is_held d = false := by
  induction l with
  | nil => intro i P q _ v hv; cases hv
  | cons v rest ih =>
    intro i P q hq w hw
    simp only [firstPassAux] at hq
    by_cases h1 : (construct v).is_held d
    · simp [h1] at hq
    · simp only [h1, if_false, Bool.false_eq_true] at hq
      rcases List.mem_cons.mp hw with hw | hw
      · subst hw
        rw [← is_held_construct]
        exact Bool.not_eq_true _ ▸ (Bool.eq_false_iff.mpr h1)
      · by_cases hb :
          ((if (construct v).release_requested d then (construct v).clear
            else construct v).is_blocked d)
        · simp [hb] at hq
        · simp only [hb, if_false, Bool.false_eq_true] at hq
          exact ih _ _ _ hq w hw

/-- If some input view is held, the first pass aborts. -/
theorem firstPassAux_none_of_held (d : Bool) (l : List LockView) :
    ∀ (i : Nat) (P : _), (∃ v ∈ l, v.is_held d = true) →
      (firstPassAux d i P l).2 = none := by
  induction l with
  | nil => intro i P h; rcases h with ⟨v, hv, _⟩; cases hv
  | cons v rest ih =>
    intro i P h
    simp only [firstPassAux]
    by_cases h1 : (construct v).is_held d
    · simp [h1]
    · simp only [h1, if_false, Bool.false_eq_true]
      rcases h with ⟨w, hw, hwheld⟩
      rcases List.mem_cons.mp hw with hw | hw
      · subst hw
        rw [← is_held_construct] at hwheld
        exact absurd hwheld h1
      · by_cases hb :
          ((if (construct v).release_requested d then (construct v).clear
            else construct v).is_blocked d)
        · simp [hb]
        · simp only [hb, if_false, Bool.false_eq_true]
          exact ih _ _ ⟨w, hw, hwheld⟩

/-- Overwriting one position of a list all of whose entries fail `p`
leaves at most one entry satisfying `p`. -/
theorem countP_set_le_one {α : Type} (p : α → Bool) (l : List α) :
    ∀ (j : Nat) (x : α), (∀ a ∈ l, ¬ p a) → (l.set j x).countP p ≤ 1 := by
  induction l with
  | nil => intro j x _; simp
  | cons a tl ih =>
    intro j x hall
    cases j with
    | zero =>
      simp only [List.set]
      rw [List.countP_cons]
      have : tl.countP p = 0 :=
        List.countP_eq_zero.mpr (fun b hb => hall b (List.mem_cons_of_mem a hb))
      rw [this]
      split <;> simp
    | succ j =>
      simp only [List.set]
      rw [List.countP_cons]
      have ha : p a = false :=
        Bool.eq_false_iff.mpr (hall a (List.mem_cons_self a tl))
      simp [ha]
      exact ih j x (fun b hb => hall b (List.mem_cons_of_mem a hb))

/-! ### Claim C1 -/

/-- C1 (amended): at most one node's derived lock status is GRANTED at
any reachable state: in every scheduling pass, if any unit's view is
held, the coordinator selects nothing and writes no grant (it returns
upon reaching the held view; release-requested views visited earlier in
the same pass are still cleared), so a second grant is never written
while one is outstanding, and a pass started with at most one GRANTED
view ends with at most one GRANTED view. -/
theorem C1_at_most_one_granted :
    (∀ (d : Bool) (views : List LockView),
        (∃ v ∈ views, v.is_held d = true) → (processLocks d views).2 = none)
    ∧ (∀ (d : Bool) (views : List LockView),
        countHeld d views ≤ 1 → countHeld d (processLocks d views).1 ≤ 1) := by
  constructor
  · intro d views h
    have hnone := firstPassAux_none_of_held d views 0 [] h
    rcases heq : firstPassAux d 0 [] views with ⟨vs, p?⟩
    rw [heq] at hnone
    cases p? with
    | none => simp [processLocks, heq]
    | some pend => simp at hnone
  · intro d views hle
    rcases heq : firstPassAux d 0 [] views with ⟨vs, p?⟩
    have hcount : countHeld d vs = countHeld d views := by
      have := countHeld_firstPassAux d views 0 []
      rw [heq] at this
      exact this
    cases p? with
    | none =>
      simp only [processLocks, heq]
      rw [hcount]
      exact hle
    | some pend =>
      cases hsel : selectNext d pend with
      | none =>
        simp only [processLocks, heq, hsel]
        rw [hcount]
        exact hle
      | some p =>
        have hall : ∀ v ∈ views, v.is_held d = false := by
          have := not_held_of_firstPassAux_complete d views 0 [] pend
          rw [heq] at this
          exact this rfl
        have hz : countHeld d views = 0 :=
          List.countP_eq_zero.mpr (fun v hv => by simp [hall v hv])
        have hzvs : countHeld d vs = 0 := by rw [hcount, hz]
        have hvsall : ∀ v ∈ vs, ¬ ((fun w => w.is_held d) v = true) :=
          List.countP_eq_zero.mp hzvs
        simp only [processLocks, heq, hsel]
        exact le_trans
          (countP_set_le_one (fun w => w.is_held d) vs p.1 (p.2.grant) hvsall)
          (le_refl 1)

/-- Witness for C1: with a single already-granted view, the pass writes
no grant and the held count stays at one. -/
theorem C1_witness :
    (processLocks false
      [(⟨false, LockState.granted, 0, true, true⟩ : LockView)]).2 = none
    ∧ countHeld false (processLocks false
        [(⟨false, LockState.granted, 0, true, true⟩ : LockView)]).1 ≤ 1 :=
  ⟨C1_at_most_one_granted.1 false _ (by decide),
   C1_at_most_one_granted.2 false _ (by decide)⟩

/-- Counterexample to C1 as stated: with a release-requested view
followed in fleet order by a held view, the pass clears the
release-requested view (its stored raw state becomes IDLE) before
returning at the held view — the coordinator does not return before
clearing. -/
theorem C1_counterexample :
    LockView.is_held false ⟨false, LockState.granted, 0, true, true⟩ = true
    ∧ (processLocks false
        [⟨false, LockState.release, 0, true, true⟩,
         ⟨false, LockState.granted, 0, true, true⟩]).1
      = [⟨false, LockState.idle, 0, true, true⟩,
         ⟨false, LockState.granted, 0, true, true⟩] := by decide

/-! ### Claim C2 -/

/-- With the fleet-wide departure predicate true, every derived state is
DEPARTING. -/
theorem state_departing (v : LockView) :
    v.state true = RetriableLockState.departing := rfl

/-- With the departure predicate true, the first pass aborts as soon as
it reaches a view whose `has_started` flag is set (including the
handler's own view, latched at construction when its unit is up). -/
theorem firstPassAux_departing_none (l : List LockView) :
    ∀ (i : Nat) (P : List (Nat × LockView)),
      (∃ v ∈ l, (construct v).hasStarted = true) →
      (firstPassAux true i P l).2 = none := by
  induction l with
  | nil =>
    intro i P h
    rcases h with ⟨v, hv, _⟩
    cases hv
  | cons v rest ih =>
    intro i P h
    simp only [firstPassAux]
    have hheld : (construct v).is_held true = false := by
      simp [LockView.is_held, state_departing]
    have hrel : (construct v).release_requested true = false := by
      simp [LockView.release_requested, state_departing]
    have hb : (construct v).is_blocked true = (construct v).hasStarted := by
      simp [LockView.is_blocked, state_departing]
    rcases h with ⟨w, hw, hws⟩
    rcases List.mem_cons.mp hw with hw | hw
    · subst hw
      simp [hheld, hrel, hb, hws]
    · by_cases hstart : (construct v).hasStarted
      · simp [hheld, hrel, hb, hstart]
      · simp only [hheld, hrel, hb, hstart, Bool.false_eq_true, if_false]
        exact ih _ _ ⟨w, hw, hws⟩

/-- C2 (amended): for every scheduling pass during which the departure
predicate is true and at least one unit's view has `has_started` set
(or has it latched during the pass, as happens for the handler's own
view when its unit is up), the coordinator issues no grant to any unit.
(Without any started view the claim as stated fails: all views derive
DEPARTING, which counts as pending, and the pass grants — see the
counterexample.) -/
theorem C2_departing_blocks_grants (views : List LockView)
    (h : ∃ v ∈ views, (construct v).hasStarted = true) :
    (processLocks true views).2 = none := by
  have hnone := firstPassAux_departing_none views 0 [] h
  rcases heq : firstPassAux true 0 [] views with ⟨vs, p?⟩
  rw [heq] at hnone
  cases p? with
  | none => simp [processLocks, heq]
  | some pend => simp at hnone

/-- Witness for C2: a departing fleet whose leader unit is up (so its
view latches `has_started`) receives no grant. -/
theorem C2_witness :
    (processLocks true
      [(⟨true, LockState.idle, 0, true, false⟩ : LockView)]).2 = none :=
  C2_departing_blocks_grants _ (by decide)

/-- Counterexample to C2 as stated: with the departure predicate true
but no unit started (leader's service down, so nothing latches), every
view derives DEPARTING, counts as pending, and the coordinator grants
the last pending view — a grant is issued while the fleet departs. -/
theorem C2_counterexample :
    (processLocks true
      [⟨true, LockState.idle, 0, false, false⟩,
       ⟨false, LockState.idle, 0, false, false⟩]).2
      = some (1, ⟨false, LockState.idle, 0, false, false⟩) := by decide

/-! ### Claim C3 -/

/-- If no pending entry is a service-down acquirer or a retrier, the
priority loop selects nothing. -/
theorem findPriority_eq_none (d : Bool) (P : List (Nat × LockView))
    (h : ∀ q ∈ P, q.2.acquire_with_stopped_service d = false
        ∧ q.2.retry d = false) :
    findPriority d P = none := by
  induction P with
  | nil => rfl
  | cons q rest ih =>
    have hq := h q (List.mem_cons_self q rest)
    simp only [findPriority, hq.1, hq.2, Bool.false_eq_true, if_false]
    exact ih (fun r hr => h r (List.mem_cons_of_mem q hr))

/-- C3 (amended): selection scans the pending list once and picks the
first view whose status is ACQUIRE_BUT_SERVICE_DOWN *or* RETRY_LOCK —
either status qualifies at its position, so a service-down acquirer is
preferred to a retry-lock view only when it appears earlier in the
list; if no view has either status, the last element of the pending
list is selected. -/
theorem C3_selection_priority :
    (∀ (d : Bool) (P₁ : List (Nat × LockView)) (p : Nat × LockView)
        (P₂ : List (Nat × LockView)),
        (∀ q ∈ P₁, q.2.acquire_with_stopped_service d = false
            ∧ q.2.retry d = false) →
        (p.2.acquire_with_stopped_service d = true ∨ p.2.retry d = true) →
        selectNext d (P₁ ++ p :: P₂) = some p)
    ∧ (∀ (d : Bool) (P : List (Nat × LockView)),
        (∀ q ∈ P, q.2.acquire_with_stopped_service d = false
            ∧ q.2.retry d = false) →
        selectNext d P = P.getLast?) := by
  constructor
  · intro d P₁ p P₂ h1 h2
    have hfp : findPriority d (P₁ ++ p :: P₂) = some p := by
      induction P₁ with
      | nil =>
        simp only [List.nil_append, findPriority]
        rcases h2 with h2 | h2
        · simp [h2]
        · by_cases habs : p.2.acquire_with_stopped_service d <;> simp [habs, h2]
      | cons q rest ih =>
        have hq := h1 q (List.mem_cons_self q rest)
        simp only [List.cons_append, findPriority, hq.1, hq.2,
          Bool.false_eq_true, if_false]
        exact ih (fun r hr => h1 r (List.mem_cons_of_mem q hr))
    simp [selectNext, hfp]
  · intro d P h
    simp [selectNext, findPriority_eq_none d P h]

/-- Witness for C3 (amended): a service-down acquirer at the head of the
pending list is selected ahead of a plain acquirer. -/
theorem C3_witness :
    selectNext false
      [(0, ⟨false, LockState.acquire, 0, false, true⟩),
       (1, ⟨false, LockState.acquire, 0, true, true⟩)]
      = some (0, ⟨false, LockState.acquire, 0, false, true⟩) :=
  C3_selection_priority.1 false [] _ _ (by decide) (by decide)

/-- Counterexample to C3 as stated: fleet [leader:IDLE, C:RETRY_LOCK,
B:ACQUIRE_BUT_SERVICE_DOWN] builds pending = [C, B]; the coordinator
selects C, the retry-lock view, even though B, a service-down acquirer,
is pending — service-down does not beat retry when retry appears
earlier in the list. -/
theorem C3_counterexample :
    (processLocks false
      [⟨true, LockState.idle, 0, true, true⟩,
       ⟨false, LockState.acquire, 1, true, true⟩,
       ⟨false, LockState.acquire, 0, false, true⟩]).2
      = some (1, ⟨false, LockState.acquire, 1, true, true⟩)
    ∧ LockView.acquire_with_stopped_service false
        ⟨false, LockState.acquire, 0, false, true⟩ = true
    ∧ LockView.retry false ⟨false, LockState.acquire, 1, true, true⟩ = true
    ∧ LockView.is_pending false ⟨false, LockState.acquire, 0, false, true⟩
        = true := by decide

/-! ### Claim C4 -/

/-- C4 is a code bug: `_on_run_with_lock` increments the retrial counter
only in the `RollingOpsRetryLockLaterException` branch; the generic
`except Exception` branch (an unrecovered callback error) logs and
releases without touching the counter, while the library's own module
docstring (lines 61-66) says a unit that defers *or raises an error*
has the lock released and its `retrial_count` increased.  At the
failing input — a granted unit whose callback raises a generic
exception with retry counter 0 — the counter stays 0 instead of
becoming 1, unlike the deferral case. -/
theorem C4_unrecovered_error_divergence :
    (runWithLock .raisedOther
        ⟨true, LockState.granted, 0, true, true⟩).retryCount = 0
    ∧ (runWithLock .deferred
        ⟨true, LockState.granted, 0, true, true⟩).retryCount = 1
    ∧ (runWithLock .raisedRetryLater
        ⟨true, LockState.granted, 0, true, true⟩).retryCount = 1
    ∧ (runWithLock .raisedOther
        ⟨true, LockState.granted, 0, true, true⟩).baseState
      = LockState.release := by decide

/-! ### Claim C5 -/

/-- C5: `retry()` (state RETRY_LOCK) implies `is_pending()` (RETRY_LOCK
is in the pending set), so the guard of the constructor's automatic
re-acquire — `lock.retry() and not (lock.is_held() or
lock.is_pending())` — is unsatisfiable: `_should_lock_be_reacquired`
returns False on every input and the automatic re-acquire emission
never fires. -/
theorem C5_reacquire_never_fires :
    ∀ (d : Bool) (v : LockView), shouldLockBeReacquired d v = false := by
  intro d v
  simp only [shouldLockBeReacquired, LockView.retry, LockView.is_held,
    LockView.is_pending]
  cases h : (construct v).state d <;> simp [h]

/-! ### Claim C6 -/

/-- If a pending list contains a view for a unit other than the
handler's own, its last element is such a view. -/
def InvLast (P : List (Nat × LockView)) : Prop :=
  (∃ q ∈ P, q.2.isLocal = false) →
    ∃ w, P.getLast? = some w ∧ w.2.isLocal = false

/-- Inserting the handler's own view at the front
(`pending.insert(0, lock)`) keeps the last element non-local. -/
theorem invLast_cons_local (i : Nat) (v : LockView)
    (P : List (Nat × LockView)) (hl : v.isLocal = true) (hP : InvLast P) :
    InvLast ((i, v) :: P) := by
  intro hex
  rcases hex with ⟨q, hq, hqnl⟩
  rcases List.mem_cons.mp hq with hq | hq
  · subst hq
    have hv : v.isLocal = false := hqnl
    rw [hl] at hv
    cases hv
  · rcases hP ⟨q, hq, hqnl⟩ with ⟨w, hw, hwnl⟩
    refine ⟨w, ?_, hwnl⟩
    cases P with
    | nil => cases hq
    | cons a tl => rw [List.getLast?_cons_cons]; exact hw

/-- Appending another unit's view (`pending.append(lock)`) makes the
last element non-local. -/
theorem invLast_append_nonlocal (i : Nat) (v : LockView)
    (P : List (Nat × LockView)) (hl : v.isLocal = false) :
    InvLast (P ++ [(i, v)]) :=
  fun _ => ⟨(i, v), List.getLast?_concat P, hl⟩

/-- The pending list built by a completed first pass keeps its last
element non-local whenever any non-local view is pending. -/
theorem firstPassAux_invLast (d : Bool) (l : List LockView) :
    ∀ (i : Nat) (P : List (Nat × LockView)), InvLast P →
      ∀ pend, (firstPassAux d i P l).2 = some pend → InvLast pend := by
  induction l with
  | nil =>
    intro i P hP pend heq
    simp only [firstPassAux] at heq
    injection heq with heq
    subst heq
    exact hP
  | cons v rest ih =>
    intro i P hP pend heq
    simp only [firstPassAux] at heq
    set v2 := if (construct v).release_requested d then (construct v).clear
      else construct v with hv2
    by_cases h1 : (construct v).is_held d
    · rw [if_pos h1] at heq
      simp at heq
    · rw [if_neg h1] at heq
      by_cases hb : v2.is_blocked d
      · rw [if_pos hb] at heq
        simp at heq
      · rw [if_neg hb] at heq
        by_cases hp : v2.is_pending d
        · rw [if_pos hp] at heq
          by_cases hl : v2.isLocal
          · rw [if_pos hl] at heq
            exact ih (i + 1) _ (invLast_cons_local i v2 P hl hP) pend
              (by simpa using heq)
          · rw [if_neg hl] at heq
            exact ih (i + 1) _
              (invLast_append_nonlocal i v2 P (Bool.eq_false_iff.mpr hl)) pend
              (by simpa using heq)
        · rw [if_neg hp] at heq
          exact ih (i + 1) P hP pend (by simpa using heq)

/-- C6: for a scheduling pass whose first pass completes with every
pending view in plain ACQUIRE status and at least one pending view
belonging to a unit other than the handler's own (the leader), the
coordinator grants a non-leader unit: the leader's pending view was
inserted at index 0 and the last pending element, a non-leader, is
selected. -/
theorem C6_leader_served_last (d : Bool) (views vs : List LockView)
    (pending : List (Nat × LockView))
    (h1 : firstPassAux d 0 [] views = (vs, some pending))
    (h2 : ∀ q ∈ pending, (q.2).state d = RetriableLockState.acquire)
    (h3 : ∃ q ∈ pending, q.2.isLocal = false) :
    ∃ p, (processLocks d views).2 = some p ∧ p.2.isLocal = false := by
  have hInvNil : InvLast [] := by
    intro hex
    simp at hex
  have hInv : InvLast pending :=
    firstPassAux_invLast d views 0 [] hInvNil pending (by rw [h1])
  rcases hInv h3 with ⟨w, hw, hwnl⟩
  have hfp : findPriority d pending = none := by
    refine findPriority_eq_none d pending (fun q hq => ?_)
    constructor
    · simp [LockView.acquire_with_stopped_service, h2 q hq]
    · simp [LockView.retry, h2 q hq]
  have hsel : selectNext d pending = some w := by
    simp [selectNext, hfp, hw]
  refine ⟨w, ?_, hwnl⟩
  simp [processLocks, h1, hsel]

/-- Witness for C6: pending = [leader:ACQUIRE, X:ACQUIRE]; the grant
goes to X, the non-leader. -/
theorem C6_witness :
    ∃ p, (processLocks false
        [⟨true, LockState.acquire, 0, true, true⟩,
         ⟨false, LockState.acquire, 0, true, true⟩]).2 = some p
      ∧ p.2.isLocal = false :=
  C6_leader_served_last false
    [⟨true, LockState.acquire, 0, true, true⟩,
     ⟨false, LockState.acquire, 0, true, true⟩]
    [⟨true, LockState.acquire, 0, true, true⟩,
     ⟨false, LockState.acquire, 0, true, true⟩]
    [(0, ⟨true, LockState.acquire, 0, true, true⟩),
     (1, ⟨false, LockState.acquire, 0, true, true⟩)]
    (by decide) (by decide) (by decide)

/-! ### Claim C7 -/

/-- C7: the derived lock status follows the spec's first-match cascade
over the raw fields, where a unit counts as requesting exactly when its
stored raw state is ACQUIRE: departing gives DEPARTING; else stored
RELEASE gives RELEASE; else stored GRANTED gives GRANTED; else a
positive retry counter gives RETRY_LOCK; else a node that is not up
gives ACQUIRE_BUT_SERVICE_DOWN when requesting and
STOPPED_NOT_REQUESTED otherwise; else ACQUIRE when requesting and IDLE
otherwise. -/
theorem C7_state_derivation_follows_spec :
    ∀ (d : Bool) (s : LockState) (rc : Nat) (up : Bool),
      lockStateOf d s rc up
        = specLockStatus d s rc up (s == LockState.acquire) := by
  intro d s rc up
  cases d <;> cases s <;> cases up <;> cases rc <;>
    simp [lockStateOf, specLockStatus, baseToRetriable, Nat.zero_lt_succ]

/-! ### Claim C8 -/

/-- C8 (amended): the `has_started` flag does not restrict granting —
a pending unit whose flag is unset can still be selected and granted
(see the counterexample); the flag gates only the blocking condition:
a view whose `has_started` flag is not set is never blocked, so it
never suspends fleet-wide scheduling. -/
theorem C8_not_started_never_blocks (d : Bool) (v : LockView)
    (h : v.hasStarted = false) : v.is_blocked d = false := by
  simp [LockView.is_blocked, h]

/-- Witness for C8 (amended): a stopped, never-started view is not
blocked. -/
theorem C8_witness :
    LockView.is_blocked false ⟨false, LockState.idle, 0, false, false⟩
      = false :=
  C8_not_started_never_blocks false _ rfl

/-- Counterexample to C8 as stated: a unit whose `has_started` flag is
unset but whose bag holds an active ACQUIRE request is selected and
granted by the scheduler. -/
theorem C8_counterexample :
    (processLocks false
      [⟨true, LockState.idle, 0, true, true⟩,
       ⟨false, LockState.acquire, 0, true, false⟩]).2
      = some (1, ⟨false, LockState.acquire, 0, true, false⟩)
    ∧ (⟨false, LockState.acquire, 0, true, false⟩ : LockView).hasStarted
      = false := by decide

/-! ### Claim C9 -/

/-- C9: the retry counter is reset to 0 only by `_on_acquire_lock`
(before the fresh request is written), incremented by exactly 1 only
when the operation signals retry-later (an explicit deferral or a
raised `RollingOpsRetryLockLaterException`), and left unchanged — in
particular never decreased — by every other operation: a successful or
error-terminated run, clearing, granting, releasing, and lock-view
construction. -/
theorem C9_retry_counter_discipline :
    (∀ v : LockView, (onAcquireLock v).retryCount = 0)
    ∧ (∀ v : LockView, (runWithLock .deferred v).retryCount
        = v.retryCount + 1)
    ∧ (∀ v : LockView, (runWithLock .raisedRetryLater v).retryCount
        = v.retryCount + 1)
    ∧ (∀ v : LockView, (runWithLock .success v).retryCount = v.retryCount)
    ∧ (∀ v : LockView, (runWithLock .raisedOther v).retryCount
        = v.retryCount)
    ∧ (∀ v : LockView, v.clear.retryCount = v.retryCount
        ∧ v.grant.retryCount = v.retryCount
        ∧ v.release.retryCount = v.retryCount
        ∧ (construct v).retryCount = v.retryCount) := by
  have hcon : ∀ v : LockView, (construct v).retryCount = v.retryCount := by
    intro v
    unfold construct
    split <;> rfl
  refine ⟨fun v => rfl, fun v => ?_, fun v => ?_, fun v => ?_, fun v => ?_,
    fun v => ⟨rfl, rfl, rfl, hcon v⟩⟩ <;>
    simp [runWithLock, LockView.release, hcon]

/-! ### Claim C10 -/

/-- C10: `has_started` is a monotonic latch: construction sets it
exactly when the view is the handler unit's own and that unit is up
(so once true it stays true), construction is idempotent, constructing
a view for another unit writes nothing, and no other operation —
clearing, granting, releasing, acquiring, running with the lock — ever
unsets it. -/
theorem C10_has_started_latch :
    (∀ v : LockView, (construct v).hasStarted
        = (v.hasStarted || (v.isLocal && v.unitIsUp)))
    ∧ (∀ v : LockView, construct (construct v) = construct v)
    ∧ (∀ v : LockView, v.isLocal = false → construct v = v)
    ∧ (∀ v : LockView, v.clear.hasStarted = v.hasStarted
        ∧ v.grant.hasStarted = v.hasStarted
        ∧ v.release.hasStarted = v.hasStarted)
    ∧ (∀ (o : CallbackOutcome) (v : LockView),
        (runWithLock o v).hasStarted = (construct v).hasStarted)
    ∧ (∀ v : LockView, (onAcquireLock v).hasStarted
        = (construct v).hasStarted) := by
  refine ⟨?_, ?_, ?_, fun v => ⟨rfl, rfl, rfl⟩, ?_, fun v => rfl⟩
  · intro v
    unfold construct
    by_cases h : v.isLocal && v.unitIsUp <;> simp [h]
  · intro v
    unfold construct
    by_cases h : v.isLocal && v.unitIsUp <;> simp [h]
  · intro v h
    unfold construct
    simp [h]
  · intro o v
    cases o <;> simp [runWithLock, LockView.release]

/-- Witness for C10: constructing a view for another (remote) unit
changes nothing. -/
theorem C10_witness :
    construct ⟨false, LockState.idle, 2, true, false⟩
      = ⟨false, LockState.idle, 2, true, false⟩ :=
  C10_has_started_latch.2.2.1 _ rfl

end RollingOps
